import Mathlib

/-!
# Verification of the sig-net Solana vault contract examples

Shallow embedding of `programs/solana-contracts-examples/src` (crypto.rs,
instructions/erc20_vault.rs, instructions/btc_vault.rs, contexts, state,
error.rs) and proofs of the frozen claims about it.

Modelling conventions:

* Machine integers are `Nat` with explicit `% 2^w` / bound checks where
  the source uses checked arithmetic (`u64`, `u128`).
* Byte strings (`[u8; N]`, `Vec<u8>`, Rust `String` as UTF-8) are
  `List Nat` of byte values; 32-byte words that the source only ever
  treats as opaque numbers (hashes, request ids, field elements given
  to `set_b32`) are `Nat` values, with `natToBytesBE`/`bytesToNatBE`
  for the places where the source slices them.
* `keccak256` (the `solana_program::keccak` host primitive, an external
  collaborator) is a parameter `keccak : List Nat → Nat` returning the
  digest as a 256-bit number; everything proved here holds for every
  choice of it, and witnesses instantiate it with concrete functions.
* `secp256k1_recover` (Solana syscall backed by libsecp256k1) is
  modelled concretely by its defining computation `recoverPubkey`
  below: parse `r`,`s` as nonzero scalars `< n`, lift `x = r + (recid/2)·n`
  to a curve point with y-parity `recid % 2`, and return
  `(-z/r)·G + (s/r)·R`, failing on the point at infinity.
* Fallible Rust code returning `Result` becomes `Except ErrorCode _`.
  A failed Solana instruction reverts all account mutations, so an
  instruction is a function `State → args → Except ErrorCode State`,
  and `applyStep` gives the resulting persisted state (unchanged on
  error).
-/

set_option maxRecDepth 1000000
set_option maxHeartbeats 2000000

/-! ## secp256k1 constants (libsecp256k1 `AFFINE_G`, field and group order) -/

/-- The secp256k1 base field prime. -/
def secpP : Nat := 0xFFFFFFFFFFFFFFFFFFFFFFFFFFFFFFFFFFFFFFFFFFFFFFFFFFFFFFFEFFFFFC2F

/-- The secp256k1 group order `n` (modulus of the `Scalar` type). -/
def secpN : Nat := 0xFFFFFFFFFFFFFFFFFFFFFFFFFFFFFFFEBAAEDCE6AF48A03BBFD25E8CD0364141

/-- x-coordinate of the generator `G` (`AFFINE_G.x`). -/
def genX : Nat := 0x79BE667EF9DCBBAC55A06295CE870B07029BFCDB2DCE28D959F2815B16F81798

/-- y-coordinate of the generator `G` (`AFFINE_G.y`). -/
def genY : Nat := 0x483ADA7726A3C4655DA4FBFC0E1108A8FD17B448A68554199C47D08FFB10D4B8

/-! ## Modular arithmetic helpers

`powModAux` is binary exponentiation with explicit fuel (the exponents
used are `< 2^300`, so fuel 300 always suffices); `invMod` is the
modular inverse computed by Fermat (the source's
`secp256k1_scalar_inverse_var` / field inverse, both over prime
moduli). -/

def powModAux : Nat → Nat → Nat → Nat → Nat
  | 0, _, _, m => 1 % m
  | f + 1, a, e, m =>
      if e = 0 then 1 % m
      else
        let h := powModAux f ((a * a) % m) (e / 2) m
        if e % 2 = 1 then (h * (a % m)) % m else h

def powMod (a e m : Nat) : Nat := powModAux 300 a e m

/-- Modular inverse for a prime modulus, via Fermat's little theorem. -/
def invMod (a m : Nat) : Nat := powMod a (m - 2) m

/-! ## Curve points and the affine group law

The source performs point arithmetic through libsecp256k1
(`Jacobian::add_ge`, `Affine::set_gej`); the embedding uses the
equivalent affine formulas over `ZMod`-style `Nat` arithmetic.
All coordinates are kept reduced `< secpP` on every use that matters
to the claims. -/

inductive Point where
  | inf : Point
  | aff : Nat → Nat → Point
  deriving DecidableEq, Repr

/-- Affine point doubling: `λ = 3x²/(2y)`, `x' = λ² − 2x`, `y' = λ(x−x') − y`. -/
def pointDouble : Point → Point
  | .inf => .inf
  | .aff x y =>
      if (2 * y) % secpP = 0 then .inf
      else
        let l := (3 * x * x % secpP) * invMod ((2 * y) % secpP) secpP % secpP
        let x3 := (l * l % secpP + 2 * secpP - x - x) % secpP
        let y3 := (l * ((x + secpP - x3) % secpP) % secpP + secpP - y % secpP) % secpP
        .aff x3 y3

/-- Affine point addition (the group law, matching libsecp256k1's
`add_ge` on the points the contract feeds it). -/
def pointAdd : Point → Point → Point
  | .inf, q => q
  | p, .inf => p
  | .aff x1 y1, .aff x2 y2 =>
      if x1 % secpP = x2 % secpP then
        if (y1 + y2) % secpP = 0 then .inf else pointDouble (.aff x1 y1)
      else
        let l := ((y2 + secpP - y1 % secpP) % secpP) *
                 invMod ((x2 + secpP - x1 % secpP) % secpP) secpP % secpP
        let x3 := (l * l % secpP + 2 * secpP - x1 - x2) % secpP
        let y3 := (l * ((x1 + secpP - x3) % secpP) % secpP + secpP - y1 % secpP) % secpP
        .aff x3 y3

/-- Reference double-and-add scalar multiplication (the "straightforward
field arithmetic loop"), with explicit fuel 256 covering all scalars
`< 2^256`. -/
def scalarMulAux : Nat → Nat → Point → Point → Point
  | 0, _, _, acc => acc
  | f + 1, k, base, acc =>
      if k = 0 then acc
      else
        scalarMulAux f (k / 2) (pointDouble base)
          (if k % 2 = 1 then pointAdd acc base else acc)

def scalarMul (k : Nat) (pt : Point) : Point := scalarMulAux 256 k pt .inf

/-- The generator `G` as a `Point`. -/
def genG : Point := Point.aff genX genY

/-! ## The `secp256k1_recover` syscall model -/

/-- Lift an x-coordinate to the curve point with the requested
y-parity (libsecp256k1 `ge_set_xo_var`): `y = (x³+7)^((p+1)/4)`,
rejected unless `y² = x³+7`; negated when the parity disagrees. -/
def liftX (x parity : Nat) : Option (Nat × Nat) :=
  if x ≥ secpP then none
  else
    let w := (x * x % secpP * x + 7) % secpP
    let y := powMod w ((secpP + 1) / 4) secpP
    if y * y % secpP = w then
      some (x, if y % 2 = parity then y else (secpP - y) % secpP)
    else none

/-- Model of the `secp256k1_recover` syscall: message hash `z`,
recovery id, signature `(r, s)`; returns the recovered public key's
affine coordinates. Mirrors libsecp256k1's `recover`: rejects
`recovery_id ≥ 4` (syscall precondition), zero or overflowing `r`/`s`,
an x-coordinate that does not lift to the curve, and an infinity
result; otherwise returns `(-z/r)·G + (s/r)·R`. -/
def recoverPubkey (z recid r s : Nat) : Option (Nat × Nat) :=
  if recid ≥ 4 then none
  else if r = 0 ∨ r ≥ secpN then none
  else if s = 0 ∨ s ≥ secpN then none
  else
    match liftX (r + recid / 2 * secpN) (recid % 2) with
    | none => none
    | some (rx, ry) =>
        let rInv := invMod r secpN
        let u1 := (secpN - z % secpN * rInv % secpN) % secpN
        let u2 := s * rInv % secpN
        match pointAdd (scalarMul u1 genG) (scalarMul u2 (.aff rx ry)) with
        | .inf => none
        | .aff qx qy => some (qx, qy)

/-! ## `ErrorCode` (error.rs), extended with the Anchor framework
errors that the account contexts can raise before a handler body runs. -/

inductive ErrorCode where
  | SerializationError
  | FunctionNotFound
  | InvalidRequestId
  | InvalidSignature
  | TransferFailed
  | InvalidOutput
  | Overflow
  | InvalidAddress
  | InsufficientBalance
  | Underflow
  | VaultOutputNotFound
  | InsufficientInputs
  | TransactionNotFound
  /-- Anchor: `init` on an account that already exists. -/
  | AccountAlreadyInUse
  /-- Anchor: a non-`init` `Account` that does not exist. -/
  | AccountNotInitialized
  /-- Anchor: a `constraint = ...` attribute evaluated to false. -/
  | ConstraintRaised
  deriving DecidableEq, Repr

/-! ## `scalar_mul_generator` (crypto.rs)

The ecrecover-abuse trick: `r = G.x`, `s = r·k mod n`, message hash 0,
recovery id from `G.y`'s parity. `Scalar::set_b32` reduces its 32-byte
input mod `n` (the overflow flag is ignored by the source), so the
byte-level inputs appear here as their numeric values reduced where
the source reduces them. -/

def scalar_mul_generator (k : Nat) : Except ErrorCode (Nat × Nat) :=
  let scalar := k % secpN
  let rScalar := genX % secpN
  let s := rScalar * scalar % secpN
  let recoveryId := if genY % 2 = 0 then 0 else 1
  match recoverPubkey 0 recoveryId genX s with
  | none => .error .InvalidSignature
  | some pk => .ok pk

/-- Reference generator multiplication: plain double-and-add of the
scalar (reduced mod `n`, as the `Scalar` type does) against `G`. -/
def refGenMul (k : Nat) : Point := scalarMul (k % secpN) genG

instance {e a : Type} [DecidableEq e] [DecidableEq a] : DecidableEq (Except e a) := fun x y =>
  match x, y with
  | .ok u, .ok v =>
      if h : u = v then .isTrue (by rw [h]) else .isFalse (fun hh => by cases hh; exact h rfl)
  | .error u, .error v =>
      if h : u = v then .isTrue (by rw [h]) else .isFalse (fun hh => by cases hh; exact h rfl)
  | .ok _, .error _ => .isFalse (fun hh => by cases hh)
  | .error _, .ok _ => .isFalse (fun hh => by cases hh)

/-! ## Facts about the trick's scalar algebra -/

theorem scalarMul_zero (pt : Point) : scalarMul 0 pt = .inf := rfl

theorem pointAdd_inf (q : Point) : pointAdd .inf q = q := by cases q <;> rfl

/-- `G.x` is invertible modulo the group order (concrete computation). -/
theorem genX_mul_inv :
    genX * invMod genX secpN % secpN = 1 := by
  set_option maxRecDepth 10000 in decide

/-- Lifting `G.x` with even parity recovers exactly `G` (concrete
computation of the modular square root). -/
theorem liftX_genX : liftX genX 0 = some (genX, genY) := by
  set_option maxRecDepth 10000 in decide

/-- Multiplying by `s = G.x·m mod n` and then by `G.x⁻¹ mod n` gives
back `m mod n`: the heart of the ecrecover-as-ecmul trick. -/
theorem mulmod_inv_cancel (m : Nat) :
    genX % secpN * (m % secpN) % secpN * invMod genX secpN % secpN = m % secpN := by
  have hc : genX * invMod genX secpN ≡ 1 [MOD secpN] := by
    have h1 : (1 : Nat) % secpN = 1 := by decide
    show genX * invMod genX secpN % secpN = 1 % secpN
    rw [genX_mul_inv, h1]
  have h1 : genX % secpN * (m % secpN) ≡ genX * m [MOD secpN] :=
    (Nat.mod_modEq genX secpN).mul (Nat.mod_modEq m secpN)
  have h2 : genX % secpN * (m % secpN) % secpN * invMod genX secpN ≡ m [MOD secpN] := by
    calc genX % secpN * (m % secpN) % secpN * invMod genX secpN
        ≡ genX % secpN * (m % secpN) * invMod genX secpN [MOD secpN] :=
          (Nat.mod_modEq _ _).mul_right _
      _ ≡ genX * m * invMod genX secpN [MOD secpN] := h1.mul_right _
      _ = genX * invMod genX secpN * m := by ring
      _ ≡ 1 * m [MOD secpN] := hc.mul_right m
      _ = m := one_mul m
  exact h2

/-- The synthetic `s = r·k mod n` is nonzero whenever `k mod n` is. -/
theorem synthetic_s_ne_zero {k : Nat} (hk : k % secpN ≠ 0) :
    genX % secpN * (k % secpN) % secpN ≠ 0 := by
  intro h0
  have h := mulmod_inv_cancel k
  rw [h0, Nat.zero_mul, Nat.zero_mod] at h
  exact hk h.symm

/-- Core refinement: for a scalar that is nonzero mod `n`, the
recovery-based generator multiplication agrees with the reference
double-and-add computation (and both fail together in the unreachable
point-at-infinity case). -/
theorem scalar_mul_generator_refines (k : Nat) (hk : k % secpN ≠ 0) :
    scalar_mul_generator k =
      (match refGenMul k with
        | .inf => .error .InvalidSignature
        | .aff x y => .ok (x, y)) := by
  set_option maxRecDepth 100000 in
  have hGy : genY % 2 = 0 := by decide
  have hGxok : ¬(genX = 0 ∨ genX ≥ secpN) := by decide
  have hNpos : 0 < secpN := by decide
  have hr : ¬(genX = 0 ∨ secpN ≤ genX) := by decide
  have hs : ¬(genX % secpN * (k % secpN) % secpN = 0 ∨
              secpN ≤ genX % secpN * (k % secpN) % secpN) := by
    push_neg
    exact ⟨synthetic_s_ne_zero hk, Nat.mod_lt _ hNpos⟩
  unfold scalar_mul_generator recoverPubkey
  rw [hGy]
  simp only [ge_iff_le, Nat.reduceLeDiff, if_false]
  rw [if_neg hr, if_neg hs]
  simp only [if_true, Nat.zero_div, Nat.zero_mul, Nat.add_zero, Nat.zero_mod,
    Nat.sub_zero, Nat.mod_self, liftX_genX]
  rw [scalarMul_zero, pointAdd_inf, mulmod_inv_cancel]
  show (match (match scalarMul (k % secpN) genG with
        | .inf => none
        | .aff qx qy => some (qx, qy)) with
      | none => Except.error ErrorCode.InvalidSignature
      | some pk => Except.ok pk) =
    (match refGenMul k with
      | Point.inf => Except.error ErrorCode.InvalidSignature
      | Point.aff x y => Except.ok (x, y))
  cases hP : scalarMul (k % secpN) genG <;> simp [refGenMul, hP]

/-- Claim C1, counterexample to the universal quantifier: at the
all-zero 32-byte scalar (`k = 0`, which is `≡ 0 mod n`) the synthetic
signature has `s = 0`, the recovery primitive rejects it, and
`scalar_mul_generator` returns `InvalidSignature` instead of any affine
point (`0·G` is the point at infinity, which has no affine form). -/
theorem c1_counterexample :
    scalar_mul_generator 0 = .error .InvalidSignature ∧
      ∀ q : Nat × Nat, scalar_mul_generator 0 ≠ .ok q := by
  have h : scalar_mul_generator 0 = .error .InvalidSignature := by
    set_option maxRecDepth 10000 in decide
  exact ⟨h, fun q hq => by rw [h] at hq; cases hq⟩

/-- Claim C1 (amended): for every scalar `k` that is nonzero mod the
curve order `n`, the generator-multiplication-via-signature-recovery
computation in `scalar_mul_generator` — message hash 0, `r = G.x`,
`s = r·k mod n`, recovery id from `G.y`'s parity — returns exactly the
affine point `k·G` computed by the reference double-and-add scalar
multiplication `refGenMul` (the two would also fail together in the
mathematically unreachable case that the reference lands on the point
at infinity). -/
theorem c1_scalar_mul_generator_correct (k : Nat) (hk : k % secpN ≠ 0) :
    scalar_mul_generator k =
      (match refGenMul k with
        | .inf => .error .InvalidSignature
        | .aff x y => .ok (x, y)) :=
  scalar_mul_generator_refines k hk

/-- Witness for C1's theorem at `k = 1`. -/
theorem c1_witness :
    (1 % secpN ≠ 0) ∧
      scalar_mul_generator 1 =
        (match refGenMul 1 with
          | .inf => .error .InvalidSignature
          | .aff x y => .ok (x, y)) :=
  ⟨by decide, c1_scalar_mul_generator_correct 1 (by decide)⟩

/-! ## Byte-string helpers

The source moves between `[u8; 32]` arrays, hex strings and numeric
values; these helpers are the byte-level glue (`fill_b32`, `hex::encode`,
`format!`, `to_lowercase`). -/

/-- Big-endian byte serialization of a number into `len` bytes
(`fill_b32` and friends). -/
def natToBytesBE (len n : Nat) : List Nat :=
  (List.range len).map (fun i => n / 256 ^ (len - 1 - i) % 256)

/-- Big-endian `u32` encoding (`abi_encode_packed` of a `u32`). -/
def be32 (v : Nat) : List Nat := natToBytesBE 4 v

/-- UTF-8 bytes of an ASCII string literal. -/
def strBytes (s : String) : List Nat := s.data.map Char.toNat

/-- Decimal representation of a number as ASCII bytes
(`format!("{}", v)` on an unsigned integer); fuel 40 covers `u128`. -/
def natDecBytesAux : Nat → Nat → List Nat
  | 0, _ => []
  | f + 1, m => if m < 10 then [48 + m] else natDecBytesAux f (m / 10) ++ [48 + m % 10]

def natDecBytes (m : Nat) : List Nat := natDecBytesAux 40 m

/-- One lowercase hex digit. -/
def hexDigit (d : Nat) : Nat := if d < 10 then 48 + d else 87 + d

/-- Lowercase hex encoding of a byte string (`hex::encode`). -/
def hexBytes (l : List Nat) : List Nat :=
  l.foldr (fun b acc => hexDigit (b / 16) :: hexDigit (b % 16) :: acc) []

/-- ASCII lowercasing (`str::to_lowercase` on the ASCII strings used here). -/
def asciiLower (l : List Nat) : List Nat :=
  l.map (fun c => if 65 ≤ c ∧ c ≤ 90 then c + 32 else c)

/-- `format!("0x{}", hex::encode(address_bytes))` for a 20-byte address value. -/
def fmtEthAddr (a : Nat) : List Nat := strBytes "0x" ++ hexBytes (natToBytesBE 20 a)

/-- 64-byte serialization of an affine point (`x ‖ y`); the unreachable
infinity case serializes as libsecp256k1's zeroed default. -/
def pointBytes : Point → List Nat
  | .inf => natToBytesBE 32 0 ++ natToBytesBE 32 0
  | .aff x y => natToBytesBE 32 x ++ natToBytesBE 32 y

/-! ## Address derivation (crypto.rs)

`keccak` is the external `solana_program::keccak` host primitive,
passed as an explicit parameter and returning the 32-byte digest as
its numeric value. -/

/-- `SOLANA_CAIP2_ID` (crypto.rs). -/
def solanaCaip2Id : String := "solana:5eykt4UsFv8P8NJdTREpY1vzqKqZKvdp"

/-- `RESPOND_BIDIRECTIONAL_PATH` (crypto.rs). -/
def respondBidirectionalPath : String := "solana response key"

/-- `derive_epsilon`:
`keccak256("sig.network v2.0.0 epsilon derivation:{chainId}:{predecessorId}:{path}")`. -/
def derive_epsilon (keccak : List Nat → Nat) (predecessorId path : List Nat) : Nat :=
  keccak (strBytes "sig.network v2.0.0 epsilon derivation:" ++ strBytes solanaCaip2Id ++
    strBytes ":" ++ predecessorId ++ strBytes ":" ++ path)

/-- `derive_ethereum_address`: epsilon from the derivation-path string,
`epsilon·G` via the recovery trick, affine addition to the root key,
then the last 20 bytes of the keccak hash of the child coordinates. -/
def derive_ethereum_address (keccak : List Nat → Nat) (root : Nat × Nat)
    (predecessorId path : List Nat) : Except ErrorCode Nat :=
  let eps := derive_epsilon keccak predecessorId path
  match scalar_mul_generator eps with
  | .error e => .error e
  | .ok (ex, ey) =>
      let child := pointAdd (.aff root.1 root.2) (.aff ex ey)
      .ok (keccak (pointBytes child) % 2 ^ 160)

/-- The spec's formula for the derived address
(`keccak256(rootPoint + keccak256(derivation path)·G)[12..32]`), with
the epsilon scalar multiplication done by the reference double-and-add
(a 32-byte scalar acts mod the group order `n` by definition of the
scalar field). -/
def specChildAddress (keccak : List Nat → Nat) (root : Nat × Nat)
    (predecessorId path : List Nat) : Nat :=
  keccak (pointBytes (pointAdd (.aff root.1 root.2)
    (scalarMul (derive_epsilon keccak predecessorId path % secpN) genG))) % 2 ^ 160

/-- A successful `scalar_mul_generator` output is exactly the reference
generator multiple. -/
theorem scalar_mul_generator_ok {k : Nat} {pr : Nat × Nat}
    (h : scalar_mul_generator k = .ok pr) : refGenMul k = .aff pr.1 pr.2 := by
  by_cases hk : k % secpN = 0
  · exfalso
    have hz : genX % secpN * (k % secpN) % secpN = 0 := by
      rw [hk, Nat.mul_zero, Nat.zero_mod]
    rw [scalar_mul_generator] at h
    simp only [hz] at h
    rw [recoverPubkey] at h
    simp at h
  · rw [scalar_mul_generator_refines k hk] at h
    cases hP : refGenMul k with
    | inf => rw [hP] at h; cases h
    | aff x y => rw [hP] at h; cases h; rfl

/-- Claim C2: `derive_ethereum_address` is a pure deterministic
function of `(rootPublicKey, predecessorId, path)` (identical inputs
give identical outputs — in this pure embedding, definitionally), and
every result it returns equals the spec's formula
`keccak256(rootPoint + keccak256("sig.network v2.0.0 epsilon
derivation:<chainId>:<predecessorId>:<path>")·G)[12..32]`, for every
choice of the keccak hash primitive. -/
theorem c2_derive_ethereum_address_correct :
    (∀ (keccak : List Nat → Nat) (root : Nat × Nat) (predecessorId path : List Nat),
        derive_ethereum_address keccak root predecessorId path =
          derive_ethereum_address keccak root predecessorId path) ∧
    (∀ (keccak : List Nat → Nat) (root : Nat × Nat) (predecessorId path : List Nat)
        (a : Nat),
        derive_ethereum_address keccak root predecessorId path = .ok a →
          a = specChildAddress keccak root predecessorId path) := by
  refine ⟨fun _ _ _ _ => rfl, fun keccak root pid path a h => ?_⟩
  rw [derive_ethereum_address] at h
  cases hs : scalar_mul_generator (derive_epsilon keccak pid path) with
  | error e => rw [hs] at h; cases h
  | ok pr =>
      have href := scalar_mul_generator_ok hs
      rw [hs] at h
      cases h
      rw [specChildAddress]
      have : scalarMul (derive_epsilon keccak pid path % secpN) genG = .aff pr.1 pr.2 := href
      rw [this]

/-- Concrete hash stand-in used by witnesses: 0 on 33-byte inputs
(the `requestId ‖ one-byte payload` shape), 1 elsewhere. -/
def kcW : List Nat → Nat := fun l => if l.length = 33 then 0 else 1

/-- Witness for C2's theorem: the derived address for a concrete root
key, predecessor and path, under the concrete hash `kcW`, equals the
spec formula's output. -/
theorem c2_witness :
    derive_ethereum_address kcW (genX, genY) [65] [66] = .ok 1 ∧
      1 = specChildAddress kcW (genX, genY) [65] [66] := by
  have h : derive_ethereum_address kcW (genX, genY) [65] [66] = .ok 1 := by
    set_option maxRecDepth 100000 in decide
  exact ⟨h, c2_derive_ethereum_address_correct.2 kcW (genX, genY) [65] [66] 1 h⟩

/-! ## Request-ID commitment and response-message hashing
(erc20_vault.rs / btc_vault.rs helper functions) -/

/-- `generate_sign_bidirectional_request_id`:
`keccak256(abi_encode_packed(sender.to_string(), transaction_data,
caip2_id, key_version, path, algo, dest, params))`. `abi_encode_packed`
concatenates the UTF-8 bytes of the strings, the raw bytes of the byte
slice, and the big-endian bytes of the `u32`, with no length prefixes;
the sender is passed here already stringified. -/
def generate_sign_bidirectional_request_id (keccak : List Nat → Nat)
    (senderStr transactionData caip2Id : List Nat) (keyVersion : Nat)
    (path algo dest params : List Nat) : Nat :=
  keccak (senderStr ++ transactionData ++ caip2Id ++ be32 keyVersion ++
    path ++ algo ++ dest ++ params)

/-- `hash_message`: `keccak256(request_id ‖ serialized_output)`. -/
def hash_message (keccak : List Nat → Nat) (requestId : Nat)
    (serializedOutput : List Nat) : Nat :=
  keccak (natToBytesBE 32 requestId ++ serializedOutput)

/-- `chain_signatures::Signature`: the verifier reads `big_r.x`, `s`
and `recovery_id`. -/
structure Signature where
  bigRx : Nat
  s : Nat
  recoveryId : Nat
  deriving DecidableEq, Repr

/-- `verify_signature_from_address` (identical in erc20_vault.rs and
btc_vault.rs): require `recovery_id < 4`, recover the public key,
keccak-hash it to a 20-byte address, format as `0x`-prefixed lowercase
hex and compare case-insensitively with the expected address string.
Every failure is the undifferentiated `InvalidSignature`. -/
def verify_signature_from_address (keccak : List Nat → Nat) (messageHash : Nat)
    (signature : Signature) (expectedAddress : List Nat) : Except ErrorCode Unit :=
  if signature.recoveryId ≥ 4 then .error .InvalidSignature
  else
    match recoverPubkey messageHash signature.recoveryId signature.bigRx signature.s with
    | none => .error .InvalidSignature
    | some (px, py) =>
        let addr := keccak (pointBytes (.aff px py)) % 2 ^ 160
        if asciiLower (fmtEthAddr addr) = asciiLower expectedAddress then .ok ()
        else .error .InvalidSignature

/-- Claim C6: verification succeeds exactly when the recovery id is
`< 4`, point recovery over `(messageHash, r‖s, recoveryId)` succeeds,
and the keccak-derived 20-byte address of the recovered key equals the
expected address case-insensitively; every other input fails with the
single undifferentiated `InvalidSignature` error. -/
theorem c6_verify_signature_characterization (keccak : List Nat → Nat)
    (messageHash : Nat) (sig : Signature) (expected : List Nat) :
    (verify_signature_from_address keccak messageHash sig expected = .ok () ↔
      (sig.recoveryId < 4 ∧
        ∃ px py,
          recoverPubkey messageHash sig.recoveryId sig.bigRx sig.s = some (px, py) ∧
          asciiLower (fmtEthAddr (keccak (pointBytes (.aff px py)) % 2 ^ 160)) =
            asciiLower expected)) ∧
    (verify_signature_from_address keccak messageHash sig expected = .ok () ∨
      verify_signature_from_address keccak messageHash sig expected =
        .error .InvalidSignature) := by
  rw [verify_signature_from_address]
  by_cases h4 : sig.recoveryId ≥ 4
  · rw [if_pos h4]
    constructor
    · constructor
      · intro h; cases h
      · rintro ⟨hlt, -⟩; exact absurd h4 (not_le.mpr hlt)
    · exact .inr rfl
  · rw [if_neg h4]
    cases hrec : recoverPubkey messageHash sig.recoveryId sig.bigRx sig.s with
    | none =>
        dsimp only
        constructor
        · constructor
          · intro h; cases h
          · rintro ⟨-, px, py, hpk, -⟩; cases hpk
        · exact .inr rfl
    | some pr =>
        obtain ⟨px, py⟩ := pr
        dsimp only
        by_cases haddr : asciiLower (fmtEthAddr (keccak (pointBytes (.aff px py)) % 2 ^ 160)) =
            asciiLower expected
        · rw [if_pos haddr]
          constructor
          · constructor
            · intro _
              exact ⟨not_le.mp h4, px, py, rfl, haddr⟩
            · intro _
              rfl
          · exact .inl rfl
        · rw [if_neg haddr]
          constructor
          · constructor
            · intro h; cases h
            · rintro ⟨-, qx, qy, hpk, had⟩
              cases hpk
              exact absurd had haddr
          · exact .inr rfl

/-! ## Response decoding (claim / complete handlers) -/

/-- Borsh deserialization of a `bool`: exactly one byte, `0` or `1`
(`BorshDeserialize::try_from_slice::<bool>`). -/
def borshBool : List Nat → Option Bool
  | [0] => some false
  | [1] => some true
  | _ => none

/-- `ERROR_PREFIX` — the reserved 4-byte error magic `0xDEADBEEF`. -/
def errorMagic : List Nat := [0xDE, 0xAD, 0xBE, 0xEF]

/-- The shared refund-decision block of `complete_withdraw_erc20` and
`complete_withdraw_btc`: payloads of length ≥ 4 starting with the
error magic always refund; otherwise the payload must be a Borsh
boolean (`InvalidOutput` if not), refunding on `false`. -/
def shouldRefundOf (serializedOutput : List Nat) : Except ErrorCode Bool :=
  if 4 ≤ serializedOutput.length ∧ serializedOutput.take 4 = errorMagic then .ok true
  else
    match borshBool serializedOutput with
    | some true => .ok false
    | some false => .ok true
    | none => .error .InvalidOutput

/-! ## External collaborators

The spec's out-of-scope components, bundled as one parameter record:
the keccak host primitive, base58 `Pubkey::to_string`, the runtime's
`find_program_address` for the two vault-authority PDAs, the EVM and
Bitcoin transaction encoders (`signet_rs`/`alloy`), and the cluster
clock. Every theorem below holds for every choice of them. -/

/-- `EvmTransactionParams` (state). -/
structure EvmTransactionParams where
  value : Nat
  gasLimit : Nat
  maxFeePerGas : Nat
  maxPriorityFeePerGas : Nat
  nonce : Nat
  chainId : Nat
  deriving DecidableEq, Repr

/-- The fields the contract feeds to the EVM transaction builder. -/
structure EvmTx where
  chainId : Nat
  nonce : Nat
  toAddr : Nat
  value : Nat
  inputData : List Nat
  gasLimit : Nat
  maxFeePerGas : Nat
  maxPriorityFeePerGas : Nat
  deriving DecidableEq, Repr

structure ExtEnv where
  /-- `solana_program::keccak::hash`, digest as a 256-bit number. -/
  keccak : List Nat → Nat
  /-- `Pubkey::to_string` (base58), as UTF-8 bytes. -/
  pubkeyStr : Nat → List Nat
  /-- `find_program_address([b"vault_authority", user], ID).0`. -/
  userVaultPda : Nat → Nat
  /-- `find_program_address([b"global_vault_authority"], ID).0`. -/
  globalVaultPda : Nat
  /-- `TransactionBuilder::new::<EVM>()...build().build_for_signing()` (RLP). -/
  rlpEvmTx : EvmTx → List Nat
  /-- `IERC20::transferCall { to, amount }.abi_encode()`. -/
  abiTransfer : Nat → Nat → List Nat
  /-- `TransactionBuilder::new::<BITCOIN>()...build().txid()`, from the
  `(txid, vout)` outpoints, the `(script_pubkey, value)` outputs and the
  lock time. -/
  btcTxid : List (Nat × Nat) → List (List Nat × Nat) → Nat → Nat
  /-- `Clock::get()?.unix_timestamp`. -/
  now : Int

/-- `derive_deposit_expected_address`: child address of the
user-specific vault-authority PDA under the respond-bidirectional path. -/
def derive_deposit_expected_address (ext : ExtEnv) (root : Nat × Nat) (user : Nat) :
    Except ErrorCode Nat :=
  derive_ethereum_address ext.keccak root (ext.pubkeyStr (ext.userVaultPda user))
    (strBytes respondBidirectionalPath)

/-- `derive_withdrawal_expected_address`: child address of the global
vault-authority PDA under the respond-bidirectional path. -/
def derive_withdrawal_expected_address (ext : ExtEnv) (root : Nat × Nat) :
    Except ErrorCode Nat :=
  derive_ethereum_address ext.keccak root (ext.pubkeyStr ext.globalVaultPda)
    (strBytes respondBidirectionalPath)

/-! ## Persistent accounts: ERC20 vault

Accounts are modelled as association lists keyed by their PDA seeds
(pending records by request id, balances by `(user, erc20_address)`).
Balance accounts are a total ledger defaulting to 0 (`init_if_needed`
semantics; the claims never exercise a missing non-`init_if_needed`
balance account). A failing instruction reverts every account
mutation, so instructions return `Except ErrorCode State` and
`applyStep` yields the persisted state. -/

def aGet {α : Type} (l : List (Nat × α)) (k : Nat) : Option α :=
  (l.find? (fun q => q.1 == k)).map (·.2)

def aSet {α : Type} (l : List (Nat × α)) (k : Nat) (v : α) : List (Nat × α) :=
  (k, v) :: l.filter (fun q => !(q.1 == k))

def aRemove {α : Type} (l : List (Nat × α)) (k : Nat) : List (Nat × α) :=
  l.filter (fun q => !(q.1 == k))

def balGet (l : List ((Nat × Nat) × Nat)) (k : Nat × Nat) : Nat :=
  ((l.find? (fun q => q.1 == k)).map (·.2)).getD 0

def balSet (l : List ((Nat × Nat) × Nat)) (k : Nat × Nat) (v : Nat) :
    List ((Nat × Nat) × Nat) :=
  (k, v) :: l.filter (fun q => !(q.1 == k))

def applyStep {σ ε : Type} (st : σ) (r : Except ε σ) : σ :=
  match r with
  | .ok st' => st'
  | .error _ => st

def TWO64 : Nat := 2 ^ 64
def TWO128 : Nat := 2 ^ 128

/-- `VaultConfig` (state/config.rs): the 64-byte uncompressed MPC root
public key, as its two coordinates. -/
structure VaultConfig where
  mpcRootPublicKey : Nat × Nat
  deriving DecidableEq, Repr

/-- `PendingErc20Deposit` (state/erc20.rs). -/
structure PendingErc20Deposit where
  requester : Nat
  amount : Nat
  erc20Address : Nat
  path : List Nat
  requestId : Nat
  deriving DecidableEq, Repr

/-- `PendingErc20Withdrawal` (state/erc20.rs). -/
structure PendingErc20Withdrawal where
  requester : Nat
  amount : Nat
  erc20Address : Nat
  recipientAddress : Nat
  path : List Nat
  requestId : Nat
  deriving DecidableEq, Repr

/-- The ERC20-side persisted accounts. The per-user transaction
history account exists in the contexts but is neither read nor written
by any erc20_vault.rs handler body, so it is not part of this state. -/
structure Erc20State where
  config : VaultConfig
  balances : List ((Nat × Nat) × Nat)
  pendingDeposits : List (Nat × PendingErc20Deposit)
  pendingWithdrawals : List (Nat × PendingErc20Withdrawal)
  deriving DecidableEq, Repr

/-! ## ERC20 instruction handlers (instructions/erc20_vault.rs with
their account contexts from contexts/erc20.rs) -/

/-- The request id `deposit_erc20` recomputes for its inputs: sender is
the user-specific vault-authority PDA, transaction data is the RLP
signing payload of the ERC20 transfer, CAIP-2 id `eip155:<chainId>`,
key version 1, path the requester's base58 string. -/
def erc20DepositComputedId (ext : ExtEnv) (requester erc20Address recipientAddress
    amount : Nat) (txParams : EvmTransactionParams) : Nat :=
  generate_sign_bidirectional_request_id ext.keccak
    (ext.pubkeyStr (ext.userVaultPda requester))
    (ext.rlpEvmTx ⟨txParams.chainId, txParams.nonce, erc20Address, txParams.value,
      ext.abiTransfer recipientAddress amount, txParams.gasLimit,
      txParams.maxFeePerGas, txParams.maxPriorityFeePerGas⟩)
    (strBytes "eip155:" ++ natDecBytes txParams.chainId) 1
    (ext.pubkeyStr requester) (strBytes "ECDSA") (strBytes "ethereum") []

/-- The request id `withdraw_erc20` recomputes: sender is the global
vault-authority PDA and the path is the hardcoded `"root"`. -/
def erc20WithdrawComputedId (ext : ExtEnv) (erc20Address amount recipientAddress : Nat)
    (txParams : EvmTransactionParams) : Nat :=
  generate_sign_bidirectional_request_id ext.keccak
    (ext.pubkeyStr ext.globalVaultPda)
    (ext.rlpEvmTx ⟨txParams.chainId, txParams.nonce, erc20Address, txParams.value,
      ext.abiTransfer recipientAddress amount, txParams.gasLimit,
      txParams.maxFeePerGas, txParams.maxPriorityFeePerGas⟩)
    (strBytes "eip155:" ++ natDecBytes txParams.chainId) 1
    (strBytes "root") (strBytes "ECDSA") (strBytes "ethereum") []

/-- `deposit_erc20`: Anchor first `init`s the pending-deposit account
at seeds `[b"pending_erc20_deposit", request_id]` (failing if it
exists); the body builds the ERC20 transfer transaction, recomputes
the request id and requires it to equal the caller's, then persists
the pending record and dispatches the CPI (external, no local state). -/
def deposit_erc20 (ext : ExtEnv) (st : Erc20State) (requestId requester erc20Address
    recipientAddress amount : Nat) (txParams : EvmTransactionParams) :
    Except ErrorCode Erc20State :=
  if (aGet st.pendingDeposits requestId).isSome then .error .AccountAlreadyInUse
  else
    let path := ext.pubkeyStr requester
    let computed := erc20DepositComputedId ext requester erc20Address
      recipientAddress amount txParams
    if computed ≠ requestId then .error .InvalidRequestId
    else
      .ok { st with pendingDeposits := (aSet st.pendingDeposits requestId
        ⟨requester, amount, erc20Address, path, requestId⟩) }

/-- `claim_erc20`: load the pending deposit (Anchor fails if the
record does not exist), derive the expected depositor-specific signer
address, verify the signature over `keccak(request_id ‖ output)`,
Borsh-decode the response boolean, and on success checked-add the
pending amount to the user's balance and close the record. -/
def claim_erc20 (ext : ExtEnv) (st : Erc20State) (requestId : Nat)
    (serializedOutput : List Nat) (sig : Signature) : Except ErrorCode Erc20State :=
  match aGet st.pendingDeposits requestId with
  | none => .error .AccountNotInitialized
  | some pending =>
      match derive_deposit_expected_address ext st.config.mpcRootPublicKey
          pending.requester with
      | .error e => .error e
      | .ok ea =>
          let messageHash := hash_message ext.keccak requestId serializedOutput
          match verify_signature_from_address ext.keccak messageHash sig
              (fmtEthAddr ea) with
          | .error e => .error e
          | .ok _ =>
              match borshBool serializedOutput with
              | none => .error .InvalidOutput
              | some success =>
                  if ¬success then .error .TransferFailed
                  else
                    let key := (pending.requester, pending.erc20Address)
                    let b := balGet st.balances key
                    if b + pending.amount ≥ TWO128 then .error .Overflow
                    else
                      .ok { st with
                        balances := balSet st.balances key (b + pending.amount),
                        pendingDeposits := aRemove st.pendingDeposits requestId }

/-- `withdraw_erc20`: Anchor `init`s the pending-withdrawal account,
then checks the context constraint `user_balance.amount >= amount`
(raising the framework's constraint error — the handler's own
`InsufficientBalance` require re-checks the same condition and is
unreachable); the body optimistically debits the balance, rebuilds the
transaction and request id with the hardcoded `"root"` path and the
global vault authority as sender, requires the id to match, and
persists the pending withdrawal. -/
def withdraw_erc20 (ext : ExtEnv) (st : Erc20State) (authority requestId erc20Address
    amount recipientAddress : Nat) (txParams : EvmTransactionParams) :
    Except ErrorCode Erc20State :=
  if (aGet st.pendingWithdrawals requestId).isSome then .error .AccountAlreadyInUse
  else
    let b := balGet st.balances (authority, erc20Address)
    if ¬(amount ≤ b) then .error .ConstraintRaised
    else if ¬(amount ≤ b) then .error .InsufficientBalance
    else
      let path := strBytes "root"
      let computed := erc20WithdrawComputedId ext erc20Address amount
        recipientAddress txParams
      if computed ≠ requestId then .error .InvalidRequestId
      else
        .ok { st with
          balances := balSet st.balances (authority, erc20Address) (b - amount),
          pendingWithdrawals := (aSet st.pendingWithdrawals requestId
            ⟨authority, amount, erc20Address, recipientAddress, path, requestId⟩) }

/-- `complete_withdraw_erc20`: load the pending withdrawal (Anchor
fails if the record does not exist; `close = payer` removes it when
the instruction succeeds), derive the global-vault expected signer,
verify the signature, decide refund via the error magic / Borsh
boolean, and checked-add the debited amount back on any failure
signal. -/
def complete_withdraw_erc20 (ext : ExtEnv) (st : Erc20State) (requestId : Nat)
    (serializedOutput : List Nat) (sig : Signature) : Except ErrorCode Erc20State :=
  match aGet st.pendingWithdrawals requestId with
  | none => .error .AccountNotInitialized
  | some pending =>
      match derive_withdrawal_expected_address ext st.config.mpcRootPublicKey with
      | .error e => .error e
      | .ok ea =>
          let messageHash := hash_message ext.keccak requestId serializedOutput
          match verify_signature_from_address ext.keccak messageHash sig
              (fmtEthAddr ea) with
          | .error e => .error e
          | .ok _ =>
              match shouldRefundOf serializedOutput with
              | .error e => .error e
              | .ok refund =>
                  if refund then
                    let key := (pending.requester, pending.erc20Address)
                    let b := balGet st.balances key
                    if b + pending.amount ≥ TWO128 then .error .Overflow
                    else
                      .ok { st with
                        balances := balSet st.balances key (b + pending.amount),
                        pendingWithdrawals := aRemove st.pendingWithdrawals requestId }
                  else
                    .ok { st with
                      pendingWithdrawals := aRemove st.pendingWithdrawals requestId }

/-! ## Persistent accounts: BTC vault (state/btc.rs, state/vault.rs,
state/transaction_status.rs) -/

/-- `BtcInput` (state/btc.rs). -/
structure BtcInput where
  txid : Nat
  vout : Nat
  scriptPubkey : List Nat
  value : Nat
  deriving DecidableEq, Repr

/-- `BtcOutput` (state/btc.rs). -/
structure BtcOutput where
  scriptPubkey : List Nat
  value : Nat
  deriving DecidableEq, Repr

/-- `BtcTransactionParams` as destructured by `deposit_btc`
(`lock_time`, `caip2_id`, `vault_script_pubkey`). -/
structure BtcTransactionParams where
  lockTime : Nat
  caip2Id : List Nat
  vaultScriptPubkey : List Nat
  deriving DecidableEq, Repr

inductive TransactionStatus where
  | Pending
  | Completed
  | Failed
  deriving DecidableEq, Repr

inductive TransactionType where
  | Deposit
  | Withdrawal
  deriving DecidableEq, Repr

/-- `TransactionRecord` (state/transaction_status.rs). -/
structure TransactionRecord where
  requestId : Nat
  transactionType : TransactionType
  status : TransactionStatus
  amount : Nat
  erc20Address : Nat
  recipientAddress : Nat
  timestamp : Int
  ethereumTxHash : Option Nat
  deriving DecidableEq, Repr

/-- `UserTransactionHistory`. The `add_*`/`update_*_status` method
bodies appear commented out in state/transaction_status.rs but are
called by btc_vault.rs; they are embedded from that commented source:
newest-first insertion truncated to the most recent 5, and
first-match status update failing with `TransactionNotFound`. -/
structure UserTransactionHistory where
  deposits : List TransactionRecord
  withdrawals : List TransactionRecord
  deriving DecidableEq, Repr

def UserTransactionHistory.add_deposit (h : UserTransactionHistory)
    (r : TransactionRecord) : UserTransactionHistory :=
  { h with deposits := (r :: h.deposits).take 5 }

def UserTransactionHistory.add_withdrawal (h : UserTransactionHistory)
    (r : TransactionRecord) : UserTransactionHistory :=
  { h with withdrawals := (r :: h.withdrawals).take 5 }

/-- First-match in-place status update for a request id. -/
def updateStatusFirst : List TransactionRecord → Nat → TransactionStatus →
    Option Nat → Option (List TransactionRecord)
  | [], _, _, _ => none
  | r :: rs, rid, stt, h =>
      if r.requestId = rid then
        some ({ r with
                status := stt
                ethereumTxHash := (if h.isSome then h else r.ethereumTxHash) } :: rs)
      else (updateStatusFirst rs rid stt h).map (r :: ·)

def UserTransactionHistory.update_withdrawal_status (hs : UserTransactionHistory)
    (rid : Nat) (stt : TransactionStatus) (h : Option Nat) :
    Except ErrorCode UserTransactionHistory :=
  match updateStatusFirst hs.withdrawals rid stt h with
  | none => .error .TransactionNotFound
  | some ws => .ok { hs with withdrawals := ws }

def UserTransactionHistory.update_deposit_status (hs : UserTransactionHistory)
    (rid : Nat) (stt : TransactionStatus) (h : Option Nat) :
    Except ErrorCode UserTransactionHistory :=
  match updateStatusFirst hs.deposits rid stt h with
  | none => .error .TransactionNotFound
  | some ds => .ok { hs with deposits := ds }

/-- `PendingBtcDeposit` (state/btc.rs). -/
structure PendingBtcDeposit where
  requester : Nat
  amount : Nat
  path : List Nat
  requestId : Nat
  deriving DecidableEq, Repr

/-- `PendingBtcWithdrawal` as populated by btc_vault.rs
(`requester`, `amount`, `recipient_address`, `path`, `request_id`;
the declared `fee` field belongs to the fee-enforcing withdrawal
variant whose body is not in src/ and is never written here). -/
structure PendingBtcWithdrawal where
  requester : Nat
  amount : Nat
  recipientAddress : List Nat
  path : List Nat
  requestId : Nat
  deriving DecidableEq, Repr

/-- `VaultConfig` (state/vault.rs variant used by btc_vault.rs):
the 20-byte MPC root signer address. -/
structure BtcVaultConfig where
  mpcRootSignerAddress : Nat
  deriving DecidableEq, Repr

structure BtcState where
  config : BtcVaultConfig
  balances : List (Nat × Nat)
  pendingDeposits : List (Nat × PendingBtcDeposit)
  pendingWithdrawals : List (Nat × PendingBtcWithdrawal)
  histories : List (Nat × UserTransactionHistory)
  deriving DecidableEq, Repr

/-- The `checked_add` input-value accumulation loop of `deposit_btc`. -/
def sumInputsChecked : List BtcInput → Nat → Except ErrorCode Nat
  | [], acc => .ok acc
  | i :: is, acc =>
      if acc + i.value ≥ TWO64 then .error .Overflow
      else sumInputsChecked is (acc + i.value)

/-- The `checked_add` output-value accumulation loop of `deposit_btc`:
total output value and the value bound for the vault script. -/
def sumOutputsChecked : List BtcOutput → List Nat → Nat → Nat →
    Except ErrorCode (Nat × Nat)
  | [], _, tot, vault => .ok (tot, vault)
  | o :: os, vaultScript, tot, vault =>
      if tot + o.value ≥ TWO64 then .error .Overflow
      else if o.scriptPubkey = vaultScript then
        if vault + o.value ≥ TWO64 then .error .Overflow
        else sumOutputsChecked os vaultScript (tot + o.value) (vault + o.value)
      else sumOutputsChecked os vaultScript (tot + o.value) vault

/-- The request id `deposit_btc` recomputes for its inputs: sender is
the user-specific vault-authority PDA, transaction data is the 32-byte
txid of the built transaction, key version 0, destination `"bitcoin"`,
path the requester's base58 string. -/
def btcDepositComputedId (ext : ExtEnv) (requester : Nat) (inputs : List BtcInput)
    (outputs : List BtcOutput) (txParams : BtcTransactionParams) : Nat :=
  generate_sign_bidirectional_request_id ext.keccak
    (ext.pubkeyStr (ext.userVaultPda requester))
    (natToBytesBE 32 (ext.btcTxid (inputs.map fun i => (i.txid, i.vout))
      (outputs.map fun o => (o.scriptPubkey, o.value)) txParams.lockTime))
    txParams.caip2Id 0 (ext.pubkeyStr requester) (strBytes "ECDSA")
    (strBytes "bitcoin") []

/-- `deposit_btc` (btc_vault.rs): Anchor `init`s the pending-deposit
account; the body sums input and output values with checked adds,
validates the lock time (`LockTime::from_height` accepts heights below
500,000,000, mapped to `InvalidAddress` on failure), computes the txid
through the external builder, recomputes the request id from the txid
and requires it to equal the caller's, requires a positive vault-bound
output value, persists the pending record, dispatches the CPI and
appends a Pending deposit record to the user's history. -/
def deposit_btc (ext : ExtEnv) (st : BtcState) (requestId requester : Nat)
    (inputs : List BtcInput) (outputs : List BtcOutput)
    (txParams : BtcTransactionParams) : Except ErrorCode BtcState :=
  if (aGet st.pendingDeposits requestId).isSome then .error .AccountAlreadyInUse
  else
    match sumInputsChecked inputs 0 with
    | .error e => .error e
    | .ok _totalInputValue =>
        match sumOutputsChecked outputs txParams.vaultScriptPubkey 0 0 with
        | .error e => .error e
        | .ok (totalOutputValue, vaultOutputValue) =>
            if txParams.lockTime ≥ 500000000 then .error .InvalidAddress
            else
              let path := ext.pubkeyStr requester
              let computed := btcDepositComputedId ext requester inputs outputs txParams
              if computed ≠ requestId then .error .InvalidRequestId
              else if ¬(vaultOutputValue > 0) then .error .VaultOutputNotFound
              else
                let hist := (aGet st.histories requester).getD ⟨[], []⟩
                let depositRecord : TransactionRecord :=
                  ⟨requestId, .Deposit, .Pending, totalOutputValue, 0, 0, ext.now, none⟩
                .ok { st with
                  pendingDeposits := (aSet st.pendingDeposits requestId
                    ⟨requester, vaultOutputValue, path, requestId⟩),
                  histories := (aSet st.histories requester
                    (hist.add_deposit depositRecord)) }

/-- `complete_withdraw_btc` (btc_vault.rs): load the pending
withdrawal (closed on success by `close = payer`), verify the
signature against the configured 20-byte MPC root signer address,
decide refund via the error magic / Borsh boolean, and on a failure
signal checked-add the debited sats back and mark the history record
Failed; on success only mark it Completed. -/
def complete_withdraw_btc (ext : ExtEnv) (st : BtcState) (requestId : Nat)
    (serializedOutput : List Nat) (sig : Signature) (bitcoinTxHash : Option Nat) :
    Except ErrorCode BtcState :=
  match aGet st.pendingWithdrawals requestId with
  | none => .error .AccountNotInitialized
  | some pending =>
      let messageHash := hash_message ext.keccak requestId serializedOutput
      match verify_signature_from_address ext.keccak messageHash sig
          (fmtEthAddr st.config.mpcRootSignerAddress) with
      | .error e => .error e
      | .ok _ =>
          match shouldRefundOf serializedOutput with
          | .error e => .error e
          | .ok refund =>
              let hist := (aGet st.histories pending.requester).getD ⟨[], []⟩
              if refund then
                let b := (aGet st.balances pending.requester).getD 0
                if b + pending.amount ≥ TWO64 then .error .Overflow
                else
                  match hist.update_withdrawal_status requestId .Failed bitcoinTxHash with
                  | .error e => .error e
                  | .ok h' =>
                      .ok { st with
                        balances := aSet st.balances pending.requester (b + pending.amount),
                        histories := aSet st.histories pending.requester h',
                        pendingWithdrawals := aRemove st.pendingWithdrawals requestId }
              else
                match hist.update_withdrawal_status requestId .Completed bitcoinTxHash with
                | .error e => .error e
                | .ok h' =>
                    .ok { st with
                      histories := aSet st.histories pending.requester h',
                      pendingWithdrawals := aRemove st.pendingWithdrawals requestId }

/-! ## Association-list lemmas -/

theorem aGet_aSet {α : Type} (l : List (Nat × α)) (k : Nat) (v : α) :
    aGet (aSet l k v) k = some v := by
  simp [aGet, aSet, List.find?]

theorem aGet_aRemove {α : Type} (l : List (Nat × α)) (k : Nat) :
    aGet (aRemove l k) k = none := by
  induction l with
  | nil => rfl
  | cons x xs ih =>
      rw [aRemove, List.filter_cons]
      by_cases hx : x.1 = k
      · simp only [hx, beq_self_eq_true, Bool.not_true, if_neg]
        exact ih
      · have hbx : (x.1 == k) = false := beq_eq_false_iff_ne.mpr hx
        simp only [hbx, Bool.not_false, if_pos]
        rw [aGet, List.find?]
        simp only [hbx]
        exact ih

theorem balGet_balSet (l : List ((Nat × Nat) × Nat)) (k : Nat × Nat) (v : Nat) :
    balGet (balSet l k v) k = v := by
  simp [balGet, balSet, List.find?]

/-! ## Claim theorems: the vault state machine -/

/-- Claim C3: initiating a deposit (ERC20 or BTC) with a caller-supplied
request id that differs from the recomputed one fails with
`InvalidRequestId`, and the persisted state is unchanged — in
particular no pending-deposit record is created. (For a fresh request
id; a replayed id is already rejected by the account framework before
the handler runs, also creating nothing.) The BTC handler reaches its
commitment check after its checked input/output accumulation and
lock-time validation, hence those hypotheses. -/
theorem c3_tamper_rejection :
    (∀ (ext : ExtEnv) (st : Erc20State) (requestId requester erc20Address
        recipientAddress amount : Nat) (txParams : EvmTransactionParams),
      aGet st.pendingDeposits requestId = none →
      erc20DepositComputedId ext requester erc20Address recipientAddress amount
        txParams ≠ requestId →
      deposit_erc20 ext st requestId requester erc20Address recipientAddress amount
          txParams = .error .InvalidRequestId ∧
      applyStep st (deposit_erc20 ext st requestId requester erc20Address
        recipientAddress amount txParams) = st) ∧
    (∀ (ext : ExtEnv) (st : BtcState) (requestId requester : Nat)
        (inputs : List BtcInput) (outputs : List BtcOutput)
        (txParams : BtcTransactionParams) (tIn tOut vOut : Nat),
      aGet st.pendingDeposits requestId = none →
      sumInputsChecked inputs 0 = .ok tIn →
      sumOutputsChecked outputs txParams.vaultScriptPubkey 0 0 = .ok (tOut, vOut) →
      txParams.lockTime < 500000000 →
      btcDepositComputedId ext requester inputs outputs txParams ≠ requestId →
      deposit_btc ext st requestId requester inputs outputs txParams =
          .error .InvalidRequestId ∧
      applyStep st (deposit_btc ext st requestId requester inputs outputs txParams) =
        st) := by
  constructor
  · intro ext st requestId requester erc20Address recipientAddress amount txParams
      hfresh hmis
    have h : deposit_erc20 ext st requestId requester erc20Address recipientAddress
        amount txParams = .error .InvalidRequestId := by
      rw [deposit_erc20, hfresh]
      simp only [Option.isSome_none, Bool.false_eq_true, if_false]
      rw [if_pos hmis]
    exact ⟨h, by rw [h]; rfl⟩
  · intro ext st requestId requester inputs outputs txParams tIn tOut vOut
      hfresh hin hout hlock hmis
    have h : deposit_btc ext st requestId requester inputs outputs txParams =
        .error .InvalidRequestId := by
      rw [deposit_btc, hfresh]
      simp only [Option.isSome_none, Bool.false_eq_true, if_false]
      rw [hin, hout]
      dsimp only
      rw [if_neg (by simpa using hlock)]
      rw [if_pos hmis]
    exact ⟨h, by rw [h]; rfl⟩

/-- Claim C8 (amended): a withdrawal request for an amount strictly
greater than the user's current balance fails before any state
mutation and leaves all persisted state (in particular the balance)
unchanged; the failure is the account framework's constraint error
raised by the `user_balance.amount >= amount` context constraint,
which runs before the handler body — the handler's own
`InsufficientBalance` check re-tests the same condition and is
unreachable. -/
theorem c8_insufficient_funds (ext : ExtEnv) (st : Erc20State)
    (authority requestId erc20Address amount recipientAddress : Nat)
    (txParams : EvmTransactionParams)
    (hfresh : aGet st.pendingWithdrawals requestId = none)
    (hlt : balGet st.balances (authority, erc20Address) < amount) :
    withdraw_erc20 ext st authority requestId erc20Address amount recipientAddress
        txParams = .error .ConstraintRaised ∧
    applyStep st (withdraw_erc20 ext st authority requestId erc20Address amount
      recipientAddress txParams) = st := by
  have h : withdraw_erc20 ext st authority requestId erc20Address amount
      recipientAddress txParams = .error .ConstraintRaised := by
    rw [withdraw_erc20, hfresh]
    simp only [Option.isSome_none, Bool.false_eq_true, if_false]
    rw [if_pos (not_le.mpr hlt)]
  exact ⟨h, by rw [h]; rfl⟩

/-- Claim C4: withdrawing `A ≤ B` from balance `B` (fresh request id,
matching commitment) succeeds and immediately leaves balance `B − A`;
a subsequent successful completion whose verified response signals
failure (error magic or Borsh `false`, i.e. the refund decision is
`true`) restores the balance to exactly `B`, and one whose verified
response signals success leaves it at `B − A`. -/
theorem c4_optimistic_debit_refund (ext : ExtEnv) (st : Erc20State)
    (authority requestId erc20Address amount recipientAddress : Nat)
    (txParams : EvmTransactionParams)
    (hfresh : aGet st.pendingWithdrawals requestId = none)
    (hB : amount ≤ balGet st.balances (authority, erc20Address))
    (hrid : erc20WithdrawComputedId ext erc20Address amount recipientAddress
      txParams = requestId) :
    ∃ st1, withdraw_erc20 ext st authority requestId erc20Address amount
        recipientAddress txParams = .ok st1 ∧
      balGet st1.balances (authority, erc20Address) =
        balGet st.balances (authority, erc20Address) - amount ∧
      (∀ out sig st2, complete_withdraw_erc20 ext st1 requestId out sig = .ok st2 →
        (shouldRefundOf out = .ok true →
          balGet st2.balances (authority, erc20Address) =
            balGet st.balances (authority, erc20Address)) ∧
        (shouldRefundOf out = .ok false →
          balGet st2.balances (authority, erc20Address) =
            balGet st.balances (authority, erc20Address) - amount)) := by
  rw [withdraw_erc20, hfresh]
  simp only [Option.isSome_none, Bool.false_eq_true, if_false]
  rw [if_neg (not_not_intro hB), if_neg (not_not_intro hB),
    if_neg (not_not_intro hrid)]
  refine ⟨_, rfl, balGet_balSet _ _ _, ?_⟩
  intro out sig st2 hc
  simp only [complete_withdraw_erc20] at hc
  rw [aGet_aSet] at hc
  dsimp only at hc
  cases hd : derive_withdrawal_expected_address ext st.config.mpcRootPublicKey with
  | error e => rw [hd] at hc; cases hc
  | ok ea =>
      rw [hd] at hc
      dsimp only at hc
      cases hv : verify_signature_from_address ext.keccak
          (hash_message ext.keccak requestId out) sig (fmtEthAddr ea) with
      | error e => rw [hv] at hc; cases hc
      | ok u =>
          rw [hv] at hc
          dsimp only at hc
          cases hs : shouldRefundOf out with
          | error e => rw [hs] at hc; cases hc
          | ok refund =>
              rw [hs] at hc
              dsimp only at hc
              constructor
              · intro htrue
                have he : refund = true := Except.ok.inj htrue
                subst he
                rw [if_pos rfl] at hc
                rw [balGet_balSet] at hc
                split at hc
                · cases hc
                · cases hc
                  rw [balGet_balSet]
                  omega
              · intro hfalse
                have he : refund = false := Except.ok.inj hfalse
                subst he
                simp only [Bool.false_eq_true, if_false] at hc
                cases hc
                exact balGet_balSet _ _ _

/-- Claim C9: a deposit claim whose signature verifies against the
depositor-specific derived signer address credits, on a response
decoding to Borsh `true`, exactly the pending record's amount to the
user's balance by checked addition and closes the record; on `false`
it fails with `TransferFailed` and mutates nothing. -/
theorem c9_claim_deposit (ext : ExtEnv) (st : Erc20State) (requestId : Nat)
    (out : List Nat) (sig : Signature) (pending : PendingErc20Deposit) (ea : Nat)
    (hp : aGet st.pendingDeposits requestId = some pending)
    (hd : derive_deposit_expected_address ext st.config.mpcRootPublicKey
      pending.requester = .ok ea)
    (hv : verify_signature_from_address ext.keccak
      (hash_message ext.keccak requestId out) sig (fmtEthAddr ea) = .ok ()) :
    (borshBool out = some true →
      balGet st.balances (pending.requester, pending.erc20Address) + pending.amount
          < TWO128 →
      ∃ st', claim_erc20 ext st requestId out sig = .ok st' ∧
        balGet st'.balances (pending.requester, pending.erc20Address) =
          balGet st.balances (pending.requester, pending.erc20Address) +
            pending.amount ∧
        aGet st'.pendingDeposits requestId = none) ∧
    (borshBool out = some false →
      claim_erc20 ext st requestId out sig = .error .TransferFailed ∧
      applyStep st (claim_erc20 ext st requestId out sig) = st) := by
  constructor
  · intro hb hov
    have h : claim_erc20 ext st requestId out sig = .ok
        { st with
          balances := balSet st.balances (pending.requester, pending.erc20Address)
            (balGet st.balances (pending.requester, pending.erc20Address) +
              pending.amount),
          pendingDeposits := aRemove st.pendingDeposits requestId } := by
      simp only [claim_erc20]
      rw [hp]
      dsimp only
      rw [hd]
      dsimp only
      rw [hv]
      dsimp only
      rw [hb]
      dsimp only
      rw [if_neg (by simp), if_neg (not_le.mpr hov)]
    exact ⟨_, h, balGet_balSet _ _ _, aGet_aRemove _ _⟩
  · intro hb
    have h : claim_erc20 ext st requestId out sig = .error .TransferFailed := by
      simp only [claim_erc20]
      rw [hp]
      dsimp only
      rw [hd]
      dsimp only
      rw [hv]
      dsimp only
      rw [hb]
      dsimp only
      rw [if_pos (by simp)]
    exact ⟨h, by rw [h]; rfl⟩

/-- A successful `claim_erc20` removed the pending-deposit record. -/
theorem claim_erc20_ok_pending {ext : ExtEnv} {st : Erc20State} {requestId : Nat}
    {out : List Nat} {sig : Signature} {st' : Erc20State}
    (h : claim_erc20 ext st requestId out sig = .ok st') :
    st'.pendingDeposits = aRemove st.pendingDeposits requestId := by
  simp only [claim_erc20] at h
  repeat' split at h
  all_goals cases h
  all_goals rfl

/-- A successful `complete_withdraw_btc` removed the pending-withdrawal
record. -/
theorem complete_withdraw_btc_ok_pending {ext : ExtEnv} {st : BtcState}
    {requestId : Nat} {out : List Nat} {sig : Signature} {btx : Option Nat}
    {st' : BtcState}
    (h : complete_withdraw_btc ext st requestId out sig btx = .ok st') :
    st'.pendingWithdrawals = aRemove st.pendingWithdrawals requestId := by
  simp only [complete_withdraw_btc] at h
  repeat' split at h
  all_goals cases h
  all_goals rfl

/-- Claim C7: at most one claim/complete call can resolve a request
id. A successful `claim_erc20` (resp. `complete_withdraw_btc`) leaves
no pending record for its request id, and every subsequent
claim/complete call for the same id fails with the framework's
account-not-initialized error before reaching any balance mutation. -/
theorem c7_exactly_once :
    (∀ (ext : ExtEnv) (st : Erc20State) (requestId : Nat) (out : List Nat)
        (sig : Signature) (st' : Erc20State),
      claim_erc20 ext st requestId out sig = .ok st' →
      aGet st'.pendingDeposits requestId = none ∧
      ∀ (out2 : List Nat) (sig2 : Signature),
        claim_erc20 ext st' requestId out2 sig2 = .error .AccountNotInitialized) ∧
    (∀ (ext : ExtEnv) (st : BtcState) (requestId : Nat) (out : List Nat)
        (sig : Signature) (btx : Option Nat) (st' : BtcState),
      complete_withdraw_btc ext st requestId out sig btx = .ok st' →
      aGet st'.pendingWithdrawals requestId = none ∧
      ∀ (out2 : List Nat) (sig2 : Signature) (btx2 : Option Nat),
        complete_withdraw_btc ext st' requestId out2 sig2 btx2 =
          .error .AccountNotInitialized) := by
  constructor
  · intro ext st requestId out sig st' h
    have hnone : aGet st'.pendingDeposits requestId = none := by
      rw [claim_erc20_ok_pending h]
      exact aGet_aRemove _ _
    refine ⟨hnone, fun out2 sig2 => ?_⟩
    simp only [claim_erc20]
    rw [hnone]
  · intro ext st requestId out sig btx st' h
    have hnone : aGet st'.pendingWithdrawals requestId = none := by
      rw [complete_withdraw_btc_ok_pending h]
      exact aGet_aRemove _ _
    refine ⟨hnone, fun out2 sig2 btx2 => ?_⟩
    simp only [complete_withdraw_btc]
    rw [hnone]

/-- Claim C10: in withdrawal completion the error-magic check precedes
boolean decoding — any payload of length ≥ 4 whose first four bytes
are `0xDEADBEEF` yields the refund decision regardless of the
remaining bytes; and (for both the ERC20 and BTC completions) a
verified payload without that prefix that is not a valid one-byte
Borsh boolean fails with `InvalidOutput`, neither refunding the
balance nor consuming the pending-withdrawal record — the withdrawal
remains pending, and a later completion call behaves exactly as if
the failed call had never happened. -/
theorem c10_error_magic_precedence :
    (∀ out : List Nat, 4 ≤ out.length → out.take 4 = errorMagic →
      shouldRefundOf out = .ok true) ∧
    (∀ (ext : ExtEnv) (st : Erc20State) (requestId : Nat) (out : List Nat)
        (sig : Signature) (pending : PendingErc20Withdrawal) (ea : Nat),
      aGet st.pendingWithdrawals requestId = some pending →
      derive_withdrawal_expected_address ext st.config.mpcRootPublicKey = .ok ea →
      verify_signature_from_address ext.keccak
        (hash_message ext.keccak requestId out) sig (fmtEthAddr ea) = .ok () →
      ¬(4 ≤ out.length ∧ out.take 4 = errorMagic) →
      borshBool out = none →
      complete_withdraw_erc20 ext st requestId out sig = .error .InvalidOutput ∧
      applyStep st (complete_withdraw_erc20 ext st requestId out sig) = st ∧
      (∀ (out2 : List Nat) (sig2 : Signature),
        complete_withdraw_erc20 ext
            (applyStep st (complete_withdraw_erc20 ext st requestId out sig))
            requestId out2 sig2 =
          complete_withdraw_erc20 ext st requestId out2 sig2)) ∧
    (∀ (ext : ExtEnv) (st : BtcState) (requestId : Nat) (out : List Nat)
        (sig : Signature) (btx : Option Nat) (pending : PendingBtcWithdrawal),
      aGet st.pendingWithdrawals requestId = some pending →
      verify_signature_from_address ext.keccak
        (hash_message ext.keccak requestId out) sig
        (fmtEthAddr st.config.mpcRootSignerAddress) = .ok () →
      ¬(4 ≤ out.length ∧ out.take 4 = errorMagic) →
      borshBool out = none →
      complete_withdraw_btc ext st requestId out sig btx = .error .InvalidOutput ∧
      applyStep st (complete_withdraw_btc ext st requestId out sig btx) = st ∧
      (∀ (out2 : List Nat) (sig2 : Signature) (btx2 : Option Nat),
        complete_withdraw_btc ext
            (applyStep st (complete_withdraw_btc ext st requestId out sig btx))
            requestId out2 sig2 btx2 =
          complete_withdraw_btc ext st requestId out2 sig2 btx2)) := by
  have hmagicRefund : ∀ out : List Nat, 4 ≤ out.length → out.take 4 = errorMagic →
      shouldRefundOf out = .ok true := by
    intro out h4 hm
    rw [shouldRefundOf, if_pos ⟨h4, hm⟩]
  have hinvalid : ∀ out : List Nat, ¬(4 ≤ out.length ∧ out.take 4 = errorMagic) →
      borshBool out = none → shouldRefundOf out = .error .InvalidOutput := by
    intro out hnm hb
    rw [shouldRefundOf, if_neg hnm, hb]
  refine ⟨hmagicRefund, ?_, ?_⟩
  · intro ext st requestId out sig pending ea hp hd hv hnm hb
    have h : complete_withdraw_erc20 ext st requestId out sig =
        .error .InvalidOutput := by
      simp only [complete_withdraw_erc20]
      rw [hp]
      dsimp only
      rw [hd]
      dsimp only
      rw [hv]
      dsimp only
      rw [hinvalid out hnm hb]
    refine ⟨h, by rw [h]; rfl, fun out2 sig2 => by rw [h]; rfl⟩
  · intro ext st requestId out sig btx pending hp hv hnm hb
    have h : complete_withdraw_btc ext st requestId out sig btx =
        .error .InvalidOutput := by
      simp only [complete_withdraw_btc]
      rw [hp]
      dsimp only
      rw [hv]
      dsimp only
      rw [hinvalid out hnm hb]
    refine ⟨h, by rw [h]; rfl, fun out2 sig2 btx2 => by rw [h]; rfl⟩

/-! ## Claim C5: the fee-enforcing Bitcoin withdrawal construction -/

/-- Modelled from the spec: the output-construction and fee-accounting
block of the Bitcoin withdrawal. The handler body implementing it is
not under src/ — only its declarations are: the `WithdrawBtc` context
takes no caller-supplied outputs but a `BtcWithdrawParams` carrying
`fee`, `recipient_script_pubkey` and `vault_script_pubkey`;
`PendingBtcWithdrawal` declares a `fee` field; and error.rs declares
`InsufficientInputs` ("Provided inputs do not cover requested amount
+ fee"), none of which the btc_vault.rs body in src/ uses. Per the
spec: require `totalInputValue ≥ amount + fee` (else
`InsufficientInputs`), compute `changeOutputValue = totalInputValue −
(amount + fee)`, and emit `[recipient: amount]` plus a change output
back to the vault only when the change is positive. -/
def withdraw_btc_build_outputs (inputs : List BtcInput) (amount fee : Nat)
    (recipientScriptPubkey vaultScriptPubkey : List Nat) :
    Except ErrorCode (List BtcOutput) :=
  let totalInputValue := (inputs.map (·.value)).sum
  if totalInputValue < amount + fee then .error .InsufficientInputs
  else
    let change := totalInputValue - (amount + fee)
    .ok (⟨recipientScriptPubkey, amount⟩ ::
      (if change > 0 then [⟨vaultScriptPubkey, change⟩] else []))

/-- Claim C5: the Bitcoin withdrawal enforces
`totalInputValue ≥ amount + fee` (failing with `InsufficientInputs`
otherwise), computes the change as `totalInputValue − (amount + fee)`,
and constructs exactly `[recipient: amount]` plus — iff the change is
positive — a change output of that value back to the vault script, so
that total output value + fee = total input value. -/
theorem c5_utxo_accounting (inputs : List BtcInput) (amount fee : Nat)
    (recipientScriptPubkey vaultScriptPubkey : List Nat) :
    ((inputs.map (·.value)).sum < amount + fee →
      withdraw_btc_build_outputs inputs amount fee recipientScriptPubkey
        vaultScriptPubkey = .error .InsufficientInputs) ∧
    (amount + fee ≤ (inputs.map (·.value)).sum →
      ∃ outs, withdraw_btc_build_outputs inputs amount fee recipientScriptPubkey
          vaultScriptPubkey = .ok outs ∧
        outs = ⟨recipientScriptPubkey, amount⟩ ::
          (if amount + fee < (inputs.map (·.value)).sum then
            [⟨vaultScriptPubkey, (inputs.map (·.value)).sum - (amount + fee)⟩]
          else []) ∧
        (outs.map (·.value)).sum + fee = (inputs.map (·.value)).sum) := by
  constructor
  · intro hlt
    rw [withdraw_btc_build_outputs, if_pos hlt]
  · intro hge
    rw [withdraw_btc_build_outputs, if_neg (not_lt.mpr hge)]
    refine ⟨_, rfl, ?_, ?_⟩
    · by_cases hc : amount + fee < (inputs.map (·.value)).sum
      · rw [if_pos hc, if_pos (by omega)]
      · rw [if_neg hc, if_neg (by omega)]
    · by_cases hc : amount + fee < (inputs.map (·.value)).sum
      · rw [if_pos (by omega : (inputs.map (·.value)).sum - (amount + fee) > 0)]
        simp only [List.map_cons, List.map_nil, List.sum_cons, List.sum_nil]
        omega
      · rw [if_neg (by omega : ¬(inputs.map (·.value)).sum - (amount + fee) > 0)]
        simp only [List.map_cons, List.map_nil, List.sum_cons, List.sum_nil]
        omega

/-! ## Concrete fixtures for the witnesses -/

/-- Concrete external-collaborator instantiation for witnesses, built
around the hash stand-in `kcW`. -/
def extW : ExtEnv :=
  ⟨kcW, fun _ => [65], fun u => u, 7, fun _ => [], fun _ _ => [], fun _ _ _ => 5, 0⟩

/-- Concrete signature: `r = s = G.x`, recovery id 0. Over a zero
message hash it recovers exactly `G`. -/
def sigW : Signature := ⟨genX, genX, 0⟩

def txpW : EvmTransactionParams := ⟨0, 0, 0, 0, 0, 1⟩

/-- Concrete ERC20 vault state: user 10 holds 100 of token 20, a
pending deposit of 40 under request id 5, and a pending withdrawal of
30 under request id 6. -/
def stE : Erc20State :=
  ⟨⟨(genX, genY)⟩, [((10, 20), 100)],
    [(5, ⟨10, 40, 20, [65], 5⟩)],
    [(6, ⟨10, 30, 20, 9, strBytes "root", 6⟩)]⟩

/-- Concrete BTC vault state: user 10 holds 50 sats, a pending
withdrawal of 30 under request id 3, and a matching Pending history
record. -/
def stB : BtcState :=
  ⟨⟨1⟩, [(10, 50)], [],
    [(3, ⟨10, 30, [66], strBytes "root", 3⟩)],
    [(10, ⟨[], [⟨3, .Withdrawal, .Pending, 30, 0, 0, 0, none⟩]⟩)]⟩

/-- Witness for C3's theorem: a concrete ERC20 deposit and a concrete
BTC deposit, each with a supplied request id differing from the
recomputed one, fail with `InvalidRequestId` and change nothing. -/
theorem c3_witness :
    (deposit_erc20 extW stE 2 10 20 9 40 txpW = .error .InvalidRequestId ∧
      applyStep stE (deposit_erc20 extW stE 2 10 20 9 40 txpW) = stE) ∧
    (deposit_btc extW stB 2 10 [⟨1, 0, [2], 10⟩] [⟨[4], 7⟩] ⟨0, [99], [4]⟩ =
        .error .InvalidRequestId ∧
      applyStep stB (deposit_btc extW stB 2 10 [⟨1, 0, [2], 10⟩] [⟨[4], 7⟩]
        ⟨0, [99], [4]⟩) = stB) :=
  ⟨c3_tamper_rejection.1 extW stE 2 10 20 9 40 txpW (by decide) (by decide),
   c3_tamper_rejection.2 extW stB 2 10 [⟨1, 0, [2], 10⟩] [⟨[4], 7⟩]
     ⟨0, [99], [4]⟩ 10 7 7 (by decide) (by decide) (by decide) (by decide)
     (by decide)⟩

/-- Witness for C4's theorem: withdrawing 30 from balance 100 at the
recomputed request id. -/
theorem c4_witness :
    ∃ st1, withdraw_erc20 extW stE 10 1 20 30 9 txpW = .ok st1 ∧
      balGet st1.balances (10, 20) = balGet stE.balances (10, 20) - 30 ∧
      (∀ out sig st2, complete_withdraw_erc20 extW st1 1 out sig = .ok st2 →
        (shouldRefundOf out = .ok true →
          balGet st2.balances (10, 20) = balGet stE.balances (10, 20)) ∧
        (shouldRefundOf out = .ok false →
          balGet st2.balances (10, 20) = balGet stE.balances (10, 20) - 30)) :=
  c4_optimistic_debit_refund extW stE 10 1 20 30 9 txpW (by decide) (by decide)
    (by decide)

/-- Witness for C5's theorem: one input of 10 sats, amount 3, fee 2
(change 5), and an underfunded variant (4 sats against amount 3 +
fee 2). -/
theorem c5_witness :
    ((([⟨0, 0, [1], 4⟩] : List BtcInput).map (·.value)).sum < 3 + 2 ∧
      withdraw_btc_build_outputs [⟨0, 0, [1], 4⟩] 3 2 [7] [8] =
        .error .InsufficientInputs) ∧
    (3 + 2 ≤ (([⟨0, 0, [1], 10⟩] : List BtcInput).map (·.value)).sum ∧
      ∃ outs, withdraw_btc_build_outputs [⟨0, 0, [1], 10⟩] 3 2 [7] [8] = .ok outs ∧
        outs = ⟨[7], 3⟩ ::
          (if 3 + 2 < (([⟨0, 0, [1], 10⟩] : List BtcInput).map (·.value)).sum then
            [⟨[8], (([⟨0, 0, [1], 10⟩] : List BtcInput).map (·.value)).sum - (3 + 2)⟩]
          else []) ∧
        (outs.map (·.value)).sum + 2 =
          (([⟨0, 0, [1], 10⟩] : List BtcInput).map (·.value)).sum) :=
  ⟨⟨by decide, (c5_utxo_accounting [⟨0, 0, [1], 4⟩] 3 2 [7] [8]).1 (by decide)⟩,
   ⟨by decide, (c5_utxo_accounting [⟨0, 0, [1], 10⟩] 3 2 [7] [8]).2 (by decide)⟩⟩

/-- Witness for C7's theorem: a successful concrete ERC20 deposit
claim and a successful concrete BTC withdrawal completion, each
followed by the guaranteed failure of any second call on the same
request id. -/
theorem c7_witness :
    (aGet (applyStep stE (claim_erc20 extW stE 5 [1] sigW)).pendingDeposits 5 =
        none ∧
      ∀ (out2 : List Nat) (sig2 : Signature),
        claim_erc20 extW (applyStep stE (claim_erc20 extW stE 5 [1] sigW)) 5
          out2 sig2 = .error .AccountNotInitialized) ∧
    (aGet (applyStep stB
        (complete_withdraw_btc extW stB 3 [1] sigW none)).pendingWithdrawals 3 =
        none ∧
      ∀ (out2 : List Nat) (sig2 : Signature) (btx2 : Option Nat),
        complete_withdraw_btc extW
          (applyStep stB (complete_withdraw_btc extW stB 3 [1] sigW none)) 3
          out2 sig2 btx2 = .error .AccountNotInitialized) :=
  ⟨c7_exactly_once.1 extW stE 5 [1] sigW _ (by decide),
   c7_exactly_once.2 extW stB 3 [1] sigW none _ (by decide)⟩

/-- Counterexample for C8 as stated: with balance 100 of token 20 and
a withdrawal of 200, the call fails with the framework's constraint
error (the context constraint `user_balance.amount >= amount` runs
before the handler body), not with the program's named
`InsufficientBalance` error. -/
theorem c8_counterexample :
    withdraw_erc20 extW stE 10 2 20 200 9 txpW = .error .ConstraintRaised ∧
      withdraw_erc20 extW stE 10 2 20 200 9 txpW ≠ .error .InsufficientBalance := by
  decide

/-- Witness for C8's (amended) theorem at the same concrete input. -/
theorem c8_witness :
    aGet stE.pendingWithdrawals 2 = none ∧
      balGet stE.balances (10, 20) < 200 ∧
      (withdraw_erc20 extW stE 10 2 20 200 9 txpW = .error .ConstraintRaised ∧
        applyStep stE (withdraw_erc20 extW stE 10 2 20 200 9 txpW) = stE) :=
  ⟨by decide, by decide,
   c8_insufficient_funds extW stE 10 2 20 200 9 txpW (by decide) (by decide)⟩

/-- Witness for C9's theorem: claiming the concrete pending deposit of
40 under request id 5 with a verifying signature, for the Borsh `true`
and `false` payloads. -/
theorem c9_witness :
    (borshBool [1] = some true →
      balGet stE.balances (10, 20) + 40 < TWO128 →
      ∃ st', claim_erc20 extW stE 5 [1] sigW = .ok st' ∧
        balGet st'.balances (10, 20) = balGet stE.balances (10, 20) + 40 ∧
        aGet st'.pendingDeposits 5 = none) ∧
    (borshBool [1] = some false →
      claim_erc20 extW stE 5 [1] sigW = .error .TransferFailed ∧
      applyStep stE (claim_erc20 extW stE 5 [1] sigW) = stE) :=
  c9_claim_deposit extW stE 5 [1] sigW ⟨10, 40, 20, [65], 5⟩ 1 (by decide)
    (by decide) (by decide)

/-- Witness for C10's theorem: the magic-prefixed payload
`DE AD BE EF 09` refunds regardless of its tail, and the one-byte
payload `[2]` (not a Borsh boolean) makes both completions fail with
`InvalidOutput` while leaving the withdrawals pending. -/
theorem c10_witness :
    shouldRefundOf (errorMagic ++ [9]) = .ok true ∧
    (complete_withdraw_erc20 extW stE 6 [2] sigW = .error .InvalidOutput ∧
      applyStep stE (complete_withdraw_erc20 extW stE 6 [2] sigW) = stE ∧
      (∀ (out2 : List Nat) (sig2 : Signature),
        complete_withdraw_erc20 extW
            (applyStep stE (complete_withdraw_erc20 extW stE 6 [2] sigW)) 6
            out2 sig2 =
          complete_withdraw_erc20 extW stE 6 out2 sig2)) ∧
    (complete_withdraw_btc extW stB 3 [2] sigW none = .error .InvalidOutput ∧
      applyStep stB (complete_withdraw_btc extW stB 3 [2] sigW none) = stB ∧
      (∀ (out2 : List Nat) (sig2 : Signature) (btx2 : Option Nat),
        complete_withdraw_btc extW
            (applyStep stB (complete_withdraw_btc extW stB 3 [2] sigW none)) 3
            out2 sig2 btx2 =
          complete_withdraw_btc extW stB 3 out2 sig2 btx2)) :=
  ⟨c10_error_magic_precedence.1 (errorMagic ++ [9]) (by decide) (by decide),
   c10_error_magic_precedence.2.1 extW stE 6 [2] sigW
     ⟨10, 30, 20, 9, strBytes "root", 6⟩ 1 (by decide) (by decide) (by decide)
     (by decide) (by decide),
   c10_error_magic_precedence.2.2 extW stB 3 [2] sigW none
     ⟨10, 30, [66], strBytes "root", 3⟩ (by decide) (by decide) (by decide)
     (by decide)⟩
